import Mathlib

set_option linter.unusedVariables false

/-!
Verification development for the Documin-o document-extraction service.

The definitions below are a shallow embedding of the Python sources:

* `src/MAIN.py` — image preprocessing, instruction templates, model wrapper;
* `src/app.py` — text parser, background worker, result store, export
  renderer, status polling, save handler.

Modelling conventions, used consistently:

* Python strings are Lean `String` at API boundaries; the character-level
  algorithms (strip / split) are defined on `List Char`.
* Python dictionaries are association lists with first-match lookup and
  in-place overwrite on insert, which matches `dict` semantics because a
  `dict` never holds a duplicate key.
* Python float arithmetic in `preprocess_image` (the `min_size` rescale
  factor) is idealised as exact rational arithmetic over `ℚ`; every
  concrete input evaluated in a theorem below is chosen so that the
  corresponding float computation is exact as well.
* The filesystem is a list of existing paths; `os.remove` is `List.erase`.
* The vision-language model, the model loader and the raw image decode are
  external boundaries; they enter the worker as `Except String _` values
  (an `Except.error e` models a raised exception with message `e`).
-/

namespace Documino

/-- Character class stripped by Python `str.strip()` (ASCII whitespace). -/
def pyIsSpace (c : Char) : Bool :=
  c == ' ' || c == '\t' || c == '\n' || c == '\r' || c == '\x0b' || c == '\x0c'

/-- Python `str.strip()` on a character list: drop the whitespace prefix and
the whitespace suffix. -/
def pyStrip (s : List Char) : List Char :=
  ((s.dropWhile pyIsSpace).reverse.dropWhile pyIsSpace).reverse

/-- Python `str.split(sep)` for a one-character separator: `"".split` is
`[""]`, and every occurrence of the separator opens a new chunk. -/
def splitOn (sep : Char) : List Char → List (List Char)
  | [] => [[]]
  | c :: cs =>
    let r := splitOn sep cs
    if c = sep then [] :: r
    else
      match r with
      | [] => [[c]]
      | l :: ls => (c :: l) :: ls

/-- Python `s.split(sep, 1)` restricted to the case where `sep` occurs:
the part before the first separator and the part after it. -/
def splitFirst (sep : Char) : List Char → List Char × List Char
  | [] => ([], [])
  | c :: cs =>
    if c = sep then ([], cs)
    else
      let p := splitFirst sep cs
      (c :: p.1, p.2)

/-- Python `d[k] = v` on a dictionary represented as an association list:
overwrite the value of an existing key in place, otherwise append. -/
def alInsert {κ α : Type} [DecidableEq κ] : List (κ × α) → κ → α → List (κ × α)
  | [], k, v => [(k, v)]
  | (k₀, v₀) :: rest, k, v =>
    if k₀ = k then (k₀, v) :: rest
    else (k₀, v₀) :: alInsert rest k v

/-- Dictionary lookup (first match; inserts keep keys unique). -/
def alGet? {κ α : Type} [DecidableEq κ] : List (κ × α) → κ → Option α
  | [], _ => none
  | (k₀, v₀) :: rest, k => if k₀ = k then some v₀ else alGet? rest k

/-- Parsed-fields mapping: label → value. -/
abbrev Dict := List (String × String)

/-- Python `d.get(k, default)`. -/
def dictGetD (d : Dict) (k default : String) : String :=
  (alGet? d k).getD default

/-- Python `d.get(k1, d.get(k2, default))`. -/
def dictGetD2 (d : Dict) (k₁ k₂ default : String) : String :=
  (alGet? d k₁).getD ((alGet? d k₂).getD default)

/-- Python `k in d`. -/
def dictHasKey (d : Dict) (k : String) : Bool :=
  (alGet? d k).isSome

/-- Per-line body of the parser loop in `app.parse_extracted_text`
(src/app.py lines 104-107): a line containing a colon is split at the
first colon, both sides are stripped and stored; any other line is
ignored. -/
def parseStep (data : Dict) (line : List Char) : Dict :=
  if ':' ∈ line then
    let kv := splitFirst ':' line
    alInsert data ⟨pyStrip kv.1⟩ ⟨pyStrip kv.2⟩
  else data

/-- `app.parse_extracted_text` (src/app.py lines 99-108).  The
`document_type` argument is accepted and ignored exactly as in the source.
The `if text:` guard makes the empty string parse to the empty mapping. -/
def parse_extracted_text (text : String) (document_type : String) : Dict :=
  if text = "" then []
  else (splitOn '\n' (pyStrip text.data)).foldl parseStep []

/-- Number of colon-containing lines of a text, counted on the raw text
split at line breaks. -/
def colonLineCount (text : String) : Nat :=
  ((splitOn '\n' text.data).filter (fun l => decide (':' ∈ l))).length

/-- Colon-containing line count of an already-split line list. -/
def ccountL (ls : List (List Char)) : Nat :=
  (ls.filter (fun l => decide (':' ∈ l))).length


/- ### Instruction templates (src/MAIN.py lines 19-130)

The template texts are transcribed verbatim from the source, segment by
segment, following the Python implicit string-literal concatenation.
Apostrophes inside the texts are written with the \x27 escape. -/

/-- MAIN.passport_instruction. -/
def passport_instruction : String :=
  "Extract the following specific data from this passport image. Look carefully for each field:"
  ++ "\n\n1. PASSPORT COUNTRY CODE: The 3-letter country code, usually in the MRZ or on the data page"
  ++ "\n\n2. PASSPORT TYPE: Usually a single letter (P for regular passport) in the MRZ line"
  ++ "\n\n3. PASSPORT NUMBER: Look for \x27Passport No./No. du Passeport\x27"
  ++ "\n\n4. FIRST NAME: Extract only the first/given name from \x27Given names/Pr√©noms\x27"
  ++ "\n\n5. FAMILY NAME: Extract only the surname/family name from \x27Surname/Nom\x27"
  ++ "\n\n6. DATE OF BIRTH: Extract the day, month, and year separately"
  ++ "   - Date of Birth Day (numeric)"
  ++ "   - Date of Birth Month (numeric or text)"
  ++ "   - Date of Birth Year (4 digits)"
  ++ "\n\n7. PLACE OF BIRTH: Look for \x27Place of birth/Lieu de naissance\x27"
  ++ "\n\n8. GENDER: Look for \x27Sex/Sexe\x27 field (M or F)"
  ++ "\n\n9. DATE OF ISSUE: Extract the day, month, and year separately"
  ++ "   - Date of Issue Day (numeric)"
  ++ "   - Date of Issue Month (numeric or text)"
  ++ "   - Date of Issue Year (4 digits)"
  ++ "\n\n10. DATE OF EXPIRATION: Extract the day, month, and year separately"
  ++ "   - Date of Expiration Day (numeric)"
  ++ "   - Date of Expiration Month (numeric or text)"
  ++ "   - Date of Expiration Year (4 digits)"
  ++ "\n\n11. ISSUING AUTHORITY: Agency or entity that issued the passport"
  ++ "\n\nOutput exactly in this format (write \x27Not visible\x27 only if you cannot find the information):"
  ++ "\n----------------------------"
  ++ "\nPassport Country Code: [3-letter code]"
  ++ "\nPassport Type: [letter code]"
  ++ "\nPassport Number: [number]"
  ++ "\nFirst Name: [first/given name only]"
  ++ "\nFamily Name: [family/surname only]"
  ++ "\nDate of Birth Day: [day]"
  ++ "\nDate of Birth Month: [month]"
  ++ "\nDate of Birth Year: [year]"
  ++ "\nPlace of Birth: [place]"
  ++ "\nGender: [M/F]"
  ++ "\nDate of Issue Day: [day]"
  ++ "\nDate of Issue Month: [month]"
  ++ "\nDate of Issue Year: [year]"
  ++ "\nDate of Expiration Day: [day]"
  ++ "\nDate of Expiration Month: [month]"
  ++ "\nDate of Expiration Year: [year]"
  ++ "\nAuthority: [issuing authority]"

/-- MAIN.check_instruction. -/
def check_instruction : String :=
  "Extract text exactly as it appears in this check/cheque image. Look carefully for ONLY these specific fields:"
  ++ "\n\n1. BANK NAME:"
  ++ "   - Look at the top center/header of check"
  ++ "   - Usually includes words like \x27Bank\x27, \x27Trust\x27, \x27Financial\x27 etc."
  ++ "\n\n2. PAYOR NAME:"
  ++ "   - Look for the pre-printed name at top-left of check"
  ++ "   - This is the person/entity WRITING the check"
  ++ "   - Extract only the name"
  ++ "\n\n3. PAYOR ADDRESS:"
  ++ "   - Look for the pre-printed address under the payor name"
  ++ "   - Include complete street address"
  ++ "\n\n4. CHECK NUMBER:"
  ++ "   - Look for number in top-right corner or bottom MICR line"
  ++ "\n\n5. PAYEE NAME:"
  ++ "   - Look for name after \x27Pay to the order of\x27 or \x27Pay\x27"
  ++ "   - Extract only the name"
  ++ "   - If business name, include full name"
  ++ "\n\n6. PAYEE ADDRESS:"
  ++ "   - Look for address associated with payee if present"
  ++ "\n\n7. AMOUNT:"
  ++ "   - Look for amount in numbers (in box on right side)"
  ++ "   - Format as dollars and cents (e.g., 1,123.56)"
  ++ "\n\nOutput exactly in this format :"
  ++ "\n----------------------------"
  ++ "\nBank Name: [name of bank]"
  ++ "\n1st Payor First Name: [ name of payor]"
  ++ "\nPayor Street Address: [complete street address]"
  ++ "\nCheck Amount: [amount in numbers]"
  ++ "\n1st Payee First Name: [ name or business name]"
  ++ "\nCheck Number: [number]"
  ++ "\nPayee Street Address: [complete street address]"

/-- MAIN.invoice_instruction. -/
def invoice_instruction : String :=
  "Extract text exactly as it appears in this invoice image. For each field below:"
  ++ "\n\n1. INVOICE NUMBER: Look for \x27Invoice #\x27, \x27Invoice Number\x27, etc."
  ++ "\n\n2. INVOICE DATE: Look for \x27Date\x27, \x27Invoice Date\x27, etc."
  ++ "\n\n3. DUE DATE: Look for \x27Due Date\x27, \x27Payment Due\x27, etc."
  ++ "\n\n4. VENDOR/SELLER: Company name, address, contact info (who issued the invoice)"
  ++ "\n\n5. CUSTOMER/BILL TO: Name and address of the customer"
  ++ "\n\n6. PAYMENT TERMS: Look for \x27Terms\x27, \x27Payment Terms\x27, etc. (e.g., Net 30)"
  ++ "\n\n7. ITEMS/SERVICES: List all line items with descriptions, quantities, unit prices"
  ++ "\n\n8. SUBTOTAL: Amount before tax/shipping"
  ++ "\n\n9. TAX: Tax amount and rate (if specified)"
  ++ "\n\n10. SHIPPING/HANDLING: Shipping or handling charges (if any)"
  ++ "\n\n11. TOTAL AMOUNT: Final amount due"
  ++ "\n\n12. PAYMENT INSTRUCTIONS: Bank details, payment methods, etc."
  ++ "\n\nOutput exactly in this format (write \x27Not visible\x27 only if you cannot find the information):"
  ++ "\n----------------------------"
  ++ "\nInvoice Number: [number]"
  ++ "\nInvoice Date: [date]"
  ++ "\nDue Date: [date]"
  ++ "\nVendor/Seller: [company name & address]"
  ++ "\nCustomer: [name & address]"
  ++ "\nPayment Terms: [terms]"
  ++ "\nItems/Services: [description of items with prices]"
  ++ "\nSubtotal: [amount]"
  ++ "\nTax: [amount and rate]"
  ++ "\nShipping/Handling: [amount if applicable]"
  ++ "\nTotal Amount: [final amount]"
  ++ "\nPayment Instructions: [payment details]"

/-- MAIN.system_instructions dictionary (lines 126-130). -/
def system_instructions : List (String × String) :=
  [("passport", passport_instruction),
   ("check", check_instruction),
   ("invoice", invoice_instruction)]

/-- Python `system_instructions.get(document_type, passport_instruction)`
(src/MAIN.py line 232): unknown types fall back to the passport template. -/
def systemInstructionFor (document_type : String) : String :=
  (alGet? system_instructions document_type).getD passport_instruction

/-- Prompt composition of MAIN.process_document_image (line 235):
image placeholder token, newline, instruction, blank line. -/
def promptFor (document_type : String) : String :=
  "<image>\n" ++ systemInstructionFor document_type ++ "\n\n"

/-- MAIN.process_document_image (lines 222-258).  `preRes` models the
outcome of the raw image decode/resize inside preprocess_image (which
wraps any exception as RuntimeError "Error preprocessing image: ...");
`chat` models `model.chat` applied to the composed prompt.  Any exception
from either is caught by the function's own handler, which RETURNS the
string "Error processing image: ..." instead of raising. -/
def process_document_image (document_type : String)
    (preRes : Except String Unit) (chat : String → Except String String) : String :=
  match preRes with
  | .error e => "Error processing image: " ++ ("Error preprocessing image: " ++ e)
  | .ok _ =>
    match chat (promptFor document_type) with
    | .ok response => response
    | .error e => "Error processing image: " ++ e

/- ### Image normalizer (src/MAIN.py preprocess_image, lines 175-220) -/

/-- Geometry of the image produced by preprocess_image just before the
tensor conversion, together with the paste offsets used on the canvas. -/
structure PreprocessedImage where
  out_w : Nat
  out_h : Nat
  channels : Nat
  mode : String
  paste_x : Nat
  paste_y : Nat
  square_size : Nat
  resized_w : Nat
  resized_h : Nat
deriving DecidableEq

/-- Minimum-size upscale step (lines 188-192): when a dimension is below
`min_size`, rescale by `max(min_size/w, min_size/h)`.  Python float
division/multiplication is idealised as exact arithmetic over ℚ, and
`int(...)` of the nonnegative product is the floor. -/
def minSizeResize (w h min_size : Nat) : Nat × Nat :=
  if w < min_size ∨ h < min_size then
    let scale : ℚ := max ((min_size : ℚ) / (w : ℚ)) ((min_size : ℚ) / (h : ℚ))
    (max min_size (Int.toNat ⌊(w : ℚ) * scale⌋),
     max min_size (Int.toNat ⌊(h : ℚ) * scale⌋))
  else (w, h)

/-- Size and layout behaviour of preprocess_image: convert to RGB, apply
the min-size upscale, build a white square canvas of side
`max(longer_side, input_size)`, paste at offsets computed — exactly as the
source does — from the `w, h` values read BEFORE the min-size resize
(line 185 vs lines 202-203), then downscale the canvas to
`input_size × input_size` when it is larger.  The subtraction in the paste
offsets never underflows because the canvas side is at least the original
width and height. -/
def preprocess_image (w h : Nat) (input_size : Nat) (min_size : Nat) :
    PreprocessedImage :=
  let wh := minSizeResize w h min_size
  let max_dim := max wh.1 wh.2
  let square_size := max max_dim input_size
  let paste_x := (square_size - w) / 2
  let paste_y := (square_size - h) / 2
  if square_size > input_size then
    { out_w := input_size, out_h := input_size, channels := 3, mode := "RGB",
      paste_x := paste_x, paste_y := paste_y, square_size := square_size,
      resized_w := wh.1, resized_h := wh.2 }
  else
    { out_w := square_size, out_h := square_size, channels := 3, mode := "RGB",
      paste_x := paste_x, paste_y := paste_y, square_size := square_size,
      resized_w := wh.1, resized_h := wh.2 }


/- ### Export renderer (src/app.py convert_to_csv_content, lines 442-650) -/

/-- Parser used inside extract_passport_data and extract_invoice_data
(src/app.py lines 559-567 and 612-620): split the raw text on line
breaks WITHOUT stripping the whole text first, split each colon line at
the first colon, strip key and value. -/
def parsePlain (t : String) : Dict :=
  (splitOn '\n' t.data).foldl parseStep []

/-- Per-line body of the parser inside extract_check_data (lines 486-491):
like parseStep, except that an empty stripped value is stored as "NA". -/
def parseCheckStep (data : Dict) (line : List Char) : Dict :=
  if ':' ∈ line then
    let kv := splitFirst ':' line
    let value : String := ⟨pyStrip kv.2⟩
    alInsert data ⟨pyStrip kv.1⟩ (if value = "" then "NA" else value)
  else data

/-- String-input parser of extract_check_data (lines 486-491). -/
def parseCheckCsv (t : String) : Dict :=
  (splitOn '\n' t.data).foldl parseCheckStep []

/-- The extraction payload attached to a result row: either the raw model
text or an already-parsed mapping (the source checks isinstance). -/
inductive ExtractionData
  | text (t : String)
  | fields (d : Dict)
deriving DecidableEq

/-- Python str() of a string-keyed, string-valued dict (generic export
branch, line 648).  The repr is idealised for values without quotes; no
claim depends on its exact content. -/
def dictRepr (d : Dict) : String :=
  "\x7b" ++
    String.intercalate ", "
      (d.map (fun p => "\x27" ++ p.1 ++ "\x27: \x27" ++ p.2 ++ "\x27")) ++
  "\x7d"

/-- Python str() applied to an extraction payload. -/
def pyStrOfData : ExtractionData → String
  | .text t => t
  | .fields d => dictRepr d

/-- One element of the all_results list handed to convert_to_csv_content. -/
structure CsvItem where
  filename : String
  extraction_data : ExtractionData
deriving DecidableEq

/-- Check export header schema (lines 452-481). -/
def check_headers : List String :=
  ["Filename", "Link to The file", "Pic Date", "Download Date", "Check Type",
   "Bank Name", "1st Payor First Name", "1st Payor Family Name",
   "2nd Payor First Name", "2nd Payor Family Name", "Payor Street Address",
   "Payor City", "Payor State", "Payor Zip code", "Check Amount",
   "Account Number", "Routing Number", "Payee Type", "1st Payee First Name",
   "1st Payee Family Name", "2nd Payee First Name", "2nd Payee Family Name",
   "Check Number", "Payee Street Address", "Payee City", "Payee State",
   "Payee Zip Code", "Market"]

/-- app.convert_to_csv_content extract_check_data (lines 483-525). -/
def extract_check_data (filename : String) (extraction : ExtractionData) :
    List String :=
  let data := match extraction with
    | .text t => parseCheckCsv t
    | .fields d => d
  [filename, "Not found", "Not found", "Not found", "Not found",
   dictGetD data "Bank Name" "Not found",
   dictGetD data "Payor Name" "Not found",
   "Not found", "Not found", "Not found",
   dictGetD data "Payor Address" "Not found",
   "Not found", "Not found", "Not found",
   dictGetD data "Amount" "Not found",
   "Not found", "Not found", "Not found",
   dictGetD data "Payee Name" "Not found",
   "Not found", "Not found", "Not found",
   dictGetD data "Check Number" "Not found",
   dictGetD data "Payee Address" "Not found",
   "Not found", "Not found", "Not found", "Not found"]

/-- Passport export header schema (lines 537-556). -/
def passport_headers : List String :=
  ["Filename", "Passport Country Code", "Passport Type", "Passport Number",
   "First Name", "Family Name", "Date of Birth Day", "Date of Birth Month",
   "Date of Birth Year", "Place of Birth", "Gender", "Date of Issue Day",
   "Date of Issue Month", "Date of Issue Year", "Date of Expiration Day",
   "Date of Expiration Month", "Date of Expiration Year", "Authority"]

/-- The 17 passport field names, in the fixed header order (the headers
minus the leading Filename column). -/
def passport_field_keys : List String :=
  ["Passport Country Code", "Passport Type", "Passport Number",
   "First Name", "Family Name", "Date of Birth Day", "Date of Birth Month",
   "Date of Birth Year", "Place of Birth", "Gender", "Date of Issue Day",
   "Date of Issue Month", "Date of Issue Year", "Date of Expiration Day",
   "Date of Expiration Month", "Date of Expiration Year", "Authority"]

/-- app.convert_to_csv_content extract_passport_data (lines 558-588). -/
def extract_passport_data (filename : String) (extraction : ExtractionData) :
    List String :=
  let data := match extraction with
    | .text t => parsePlain t
    | .fields d => d
  [filename,
   dictGetD data "Passport Country Code" "NA",
   dictGetD data "Passport Type" "NA",
   dictGetD data "Passport Number" "NA",
   dictGetD data "First Name" "NA",
   dictGetD data "Family Name" "NA",
   dictGetD data "Date of Birth Day" "NA",
   dictGetD data "Date of Birth Month" "NA",
   dictGetD data "Date of Birth Year" "NA",
   dictGetD data "Place of Birth" "NA",
   dictGetD data "Gender" "NA",
   dictGetD data "Date of Issue Day" "NA",
   dictGetD data "Date of Issue Month" "NA",
   dictGetD data "Date of Issue Year" "NA",
   dictGetD data "Date of Expiration Day" "NA",
   dictGetD data "Date of Expiration Month" "NA",
   dictGetD data "Date of Expiration Year" "NA",
   dictGetD data "Authority" "NA"]

/-- Invoice export header schema (lines 600-609). -/
def invoice_headers : List String :=
  ["Filename", "Invoice Number", "Date", "Due Date", "Total Amount",
   "Vendor Name", "Customer Name", "Payment Terms"]

/-- app.convert_to_csv_content extract_invoice_data (lines 611-631). -/
def extract_invoice_data (filename : String) (extraction : ExtractionData) :
    List String :=
  let data := match extraction with
    | .text t => parsePlain t
    | .fields d => d
  [filename,
   dictGetD data "Invoice Number" "NA",
   dictGetD data "Date" "NA",
   dictGetD data "Due Date" "NA",
   dictGetD data "Total Amount" "NA",
   dictGetD data "Vendor Name" "NA",
   dictGetD data "Customer Name" "NA",
   dictGetD data "Payment Terms" "NA"]

/-- Row structure produced by app.convert_to_csv_content (lines 442-650):
the rows handed to the tab-delimited csv writer, headers first (the
writer's cell serialisation is a library boundary).  The Python
`doc_type = document_type or 'unknown'` maps None and the empty string to
"unknown", which selects the generic two-column branch. -/
def convert_to_csv_rows (all_results : List CsvItem)
    (document_type : Option String) : List (List String) :=
  let doc_type := match document_type with
    | none => "unknown"
    | some s => if s = "" then "unknown" else s
  if doc_type = "check" then
    check_headers ::
      all_results.map (fun r => extract_check_data r.filename r.extraction_data)
  else if doc_type = "passport" then
    passport_headers ::
      all_results.map (fun r => extract_passport_data r.filename r.extraction_data)
  else if doc_type = "invoice" then
    invoice_headers ::
      all_results.map (fun r => extract_invoice_data r.filename r.extraction_data)
  else
    ["Filename", "Extraction Data"] ::
      all_results.map (fun r => [r.filename, pyStrOfData r.extraction_data])

/- ### Result store, worker, status poll, save handler (src/app.py) -/

/-- Job lifecycle states stored in results_dict (not_found is synthesized
on lookup miss by check_status, never stored). -/
inductive Status
  | processing
  | completed
  | error
deriving DecidableEq

/-- One results_dict entry.  Optional fields model dictionary keys that
may be absent; is_saved is False-by-default, matching the key's absence. -/
structure Entry where
  status : Status
  path : Option String := none
  image_data : Option (List Nat) := none
  data : Option String := none
  error : Option String := none
  txt_content : Option String := none
  parsed_data : Option Dict := none
  csv_content : Option (List (List String)) := none
  is_saved : Bool := false
deriving DecidableEq

/-- The shared results_dict. -/
abbrev Store := List (String × Entry)

/-- Entry created by app.upload_documents for each accepted file
(lines 757-773): status processing, upload path recorded, and the raw
bytes captured in memory in both upload branches. -/
def uploadEntry (path : String) (bytes : List Nat) : Entry :=
  { status := .processing, path := some path, image_data := some bytes }

/-- os.path.basename for slash-separated paths. -/
def basename (p : String) : String :=
  ⟨(p.data.reverse.takeWhile (fun c => c != '/')).reverse⟩

/-- app.delete_file (lines 46-56): remove the path when it exists. -/
def delete_file (fs : List String) (p : String) : List String :=
  if p ∈ fs then fs.erase p else fs

/-- The flat-text block built for a check document by
app.process_extracted_data_by_type (lines 379-409), transcribed from the
f-string (the join over a one-element list is the element itself). -/
def checkTxtContent (fn : String) (d : Dict) : String :=
  "File: " ++ fn
  ++ "\nLink to The file: "
  ++ "\nPic Date: NA"
  ++ "\nDownload Date: "
  ++ "\nCheck Type: NA"
  ++ "\nBank Name: " ++ dictGetD d "Bank Name" "NA"
  ++ "\n1st Payor First Name: " ++ dictGetD2 d "Payor Name" "1st Payor First Name" "NA"
  ++ "\n1st Payor Family Name: "
  ++ "\n2nd Payor First Name: "
  ++ "\n2nd Payor Family Name: "
  ++ "\nPayor Street Address: " ++ dictGetD2 d "Payor Address" "Payor Street Address" "NA"
  ++ "\nPayor City: "
  ++ "\nPayor State: "
  ++ "\nPayor Zip code: "
  ++ "\nCheck Amount: " ++ dictGetD2 d "Amount" "Check Amount" "NA"
  ++ "\nAccount Number: "
  ++ "\nRouting Number: "
  ++ "\nPayee Type: "
  ++ "\n1st Payee First Name: " ++ dictGetD2 d "Payee Name" "1st Payee First Name" "NA"
  ++ "\n1st Payee Family Name: "
  ++ "\n2nd Payee First Name: "
  ++ "\n2nd Payee Family Name: "
  ++ "\nCheck Number: " ++ dictGetD d "Check Number" "NA"
  ++ "\nPayee Street Address: " ++ dictGetD2 d "Payee Address" "Payee Street Address" "NA"
  ++ "\nPayee City: "
  ++ "\nPayee State: "
  ++ "\nPayee Zip Code: "
  ++ "\nMarket: "
  ++ "\n" ++ ⟨List.replicate 50 '-'⟩

/-- CPython's message for the fault at line 424 of src/app.py. -/
def unbound_local_message : String :=
  "local variable \x27extracted_data_dict\x27 referenced before assignment"

/-- app.process_extracted_data_by_type (lines 353-432) for the string
payload the worker always passes.  Returns the updated store and, when
the function raises, the exception message: the local variable
extracted_data_dict is assigned only in the "check" branch, so for every
other document type the write on line 424 raises UnboundLocalError right
after the txt_content write of line 423 has landed. -/
def process_extracted_data_by_type (store : Store) (image_id : String)
    (document_type : String) (extracted_data : String) :
    Store × Option String :=
  match alGet? store image_id with
  | none => (store, some ("KeyError: " ++ image_id))
  | some ent =>
    if document_type = "check" then
      match ent.path with
      | none => (store, some "KeyError: path")
      | some p =>
        let edd := (splitOn '\n' (pyStrip extracted_data.data)).foldl parseStep []
        let txt := checkTxtContent (basename p) edd
        let csv := convert_to_csv_rows [⟨basename p, .fields edd⟩] (some document_type)
        (alInsert store image_id
          { ent with txt_content := some txt, parsed_data := some edd,
                     csv_content := some csv }, none)
    else
      let txt := if document_type = "text" then extracted_data else ""
      (alInsert store image_id { ent with txt_content := some txt },
       some unbound_local_message)

/-- A queue element as put by upload_documents: either the BytesIO buffer
(small files, in_memory=True) or the saved file's path (in_memory=False). -/
inductive Task
  | memTask (buf : List Nat) (document_type : String) (image_id : String)
  | fileTask (path : String) (document_type : String) (image_id : String)
deriving DecidableEq

/-- The job id of a task. -/
def Task.image_id : Task → String
  | .memTask _ _ i => i
  | .fileTask _ _ i => i

/-- Outcome of one worker iteration: filesystem, store, and the ordered
list of values assigned to the status field of the task's entry. -/
structure TaskResult where
  fs : List String
  store : Store
  statusWrites : List Status
deriving DecidableEq

/-- The always-run cleanup of the worker (finally block, lines 316-328):
delete the temporary file when one was created; then, for a task not
currently marked in-memory, delete the original upload provided cleanup
is configured, the entry records a path, the raw bytes are held in the
entry's image_data, and the file exists.  The store lookup cannot miss
for app-enqueued tasks (upload registers the entry first). -/
def finallyCleanup (fs : List String) (store : Store) (image_id : String)
    (temp : Option String) (in_memory : Bool) (cleanup_after : Bool) :
    List String :=
  let fs₁ := match temp with
    | some t => delete_file fs t
    | none => fs
  if ¬in_memory ∧ cleanup_after then
    match alGet? store image_id with
    | none => fs₁
    | some ent =>
      match ent.path with
      | none => fs₁
      | some original =>
        if ent.image_data.isSome ∧ original ∈ fs₁ then delete_file fs₁ original
        else fs₁
  else fs₁

/-- In-place error marking used by the inner bail-out paths of the worker
(lines 262-263, 284-285, 289-290): only status and error are assigned,
every other key of the entry survives. -/
def bailErrorStore (store : Store) (image_id : String) (e : String) : Store :=
  match alGet? store image_id with
  | none => store
  | some ent => alInsert store image_id { ent with status := .error, error := some e }

/-- Entry written by the worker's outer exception handler (lines 336-345):
the entry is wholly replaced by status/error/path; the image_data
self-copy of lines 344-345 is a no-op because the replacement has just
dropped the key. -/
def outerErrorStore (store : Store) (image_id : String) (e : String)
    (path : Option String) : Store :=
  alInsert store image_id { status := .error, error := some e, path := path }

/-- Result-store update on successful extraction (lines 300-311): replace
the entry with status completed and the extracted text, keep the
previously recorded path (falling back to the resolved image path), and
copy over every key of the previous entry that the replacement lacks. -/
def completeStore (store : Store) (image_id image_path extracted : String) :
    Store :=
  match alGet? store image_id with
  | none =>
    alInsert store image_id
      { status := .completed, data := some extracted, path := some image_path }
  | some o =>
    alInsert store image_id
      { status := .completed, data := some extracted,
        path := some (o.path.getD image_path),
        image_data := o.image_data, error := o.error,
        txt_content := o.txt_content, parsed_data := o.parsed_data,
        csv_content := o.csv_content, is_saved := o.is_saved }

/-- Lines 294-351 of the worker, after the image source has been resolved
to a readable path: load the model, run the extractor, write the
completed entry, render the per-type content; then the finally cleanup
and, if anything raised, the outer error handler (which deletes the
temporary file a second time, a no-op). -/
def mainPhase (fs : List String) (store : Store) (dt id image_path : String)
    (in_memory : Bool) (temp : Option String) (cleanup_after : Bool)
    (loadRes : Except String Unit) (preRes : Except String Unit)
    (chat : String → Except String String) : TaskResult :=
  match loadRes with
  | .error le =>
    let fs₁ := finallyCleanup fs store id temp in_memory cleanup_after
    let fs₂ := match temp with
      | some t => delete_file fs₁ t
      | none => fs₁
    { fs := fs₂,
      store := outerErrorStore store id ("Error loading model: " ++ le) (some image_path),
      statusWrites := [.error] }
  | .ok _ =>
    let extracted := process_document_image dt preRes chat
    let store₁ := completeStore store id image_path extracted
    let pr := process_extracted_data_by_type store₁ id dt extracted
    match pr.2 with
    | none =>
      { fs := finallyCleanup fs pr.1 id temp in_memory cleanup_after,
        store := pr.1, statusWrites := [.completed] }
    | some e =>
      let fs₁ := finallyCleanup fs pr.1 id temp in_memory cleanup_after
      let fs₂ := match temp with
        | some t => delete_file fs₁ t
        | none => fs₁
      { fs := fs₂,
        store := outerErrorStore pr.1 id e (some image_path),
        statusWrites := [.completed, .error] }

/-- One iteration of app.background_processor (lines 236-351) for a
single dequeued task.  External outcomes are parameters: loadRes for
doc_processor.load_model, preRes for the raw decode inside
preprocess_image, chat for model.chat, writeRes for writing the
temporary file, and tempPath for the fresh name handed out by
tempfile.mkstemp.  In the KeyError paths Python would store the live
buffer object under the path key; that non-path value is modelled as
none. -/
def runTask (fs₀ : List String) (store₀ : Store) (task : Task)
    (cleanup_after : Bool) (loadRes : Except String Unit)
    (preRes : Except String Unit) (chat : String → Except String String)
    (tempPath : String) (writeRes : Except String Unit) : TaskResult :=
  match task with
  | .memTask _buf dt id =>
    match alGet? store₀ id with
    | none =>
      { fs := fs₀,
        store := outerErrorStore store₀ id ("KeyError: " ++ id) none,
        statusWrites := [.error] }
    | some ent =>
      match ent.path with
      | none =>
        { fs := fs₀,
          store := outerErrorStore store₀ id "KeyError: path" none,
          statusWrites := [.error] }
      | some _origPath =>
        let fs₁ := tempPath :: fs₀
        match writeRes with
        | .error we =>
          let store₁ :=
            bailErrorStore store₀ id ("Could not create temporary file: " ++ we)
          { fs := finallyCleanup fs₁ store₁ id (some tempPath) true cleanup_after,
            store := store₁, statusWrites := [.error] }
        | .ok _ =>
          mainPhase fs₁ store₀ dt id tempPath true (some tempPath)
            cleanup_after loadRes preRes chat
  | .fileTask p dt id =>
    if p ∈ fs₀ then
      mainPhase fs₀ store₀ dt id p false none cleanup_after loadRes preRes chat
    else
      match alGet? store₀ id with
      | none =>
        { fs := fs₀,
          store := outerErrorStore store₀ id ("KeyError: " ++ id) (some p),
          statusWrites := [.error] }
      | some ent =>
        if ent.image_data.isSome then
          let fs₁ := tempPath :: fs₀
          match writeRes with
          | .error we =>
            let store₁ :=
              bailErrorStore store₀ id ("Could not create temporary file: " ++ we)
            { fs := finallyCleanup fs₁ store₁ id (some tempPath) false cleanup_after,
              store := store₁, statusWrites := [.error] }
          | .ok _ =>
            mainPhase fs₁ store₀ dt id tempPath true (some tempPath)
              cleanup_after loadRes preRes chat
        else
          let store₁ := bailErrorStore store₀ id "File not found"
          { fs := finallyCleanup fs₀ store₁ id none false cleanup_after,
            store := store₁, statusWrites := [.error] }

/-- Python dict.update(other): store every pair of other, in order. -/
def dictUpdate (d other : Dict) : Dict :=
  other.foldl (fun acc kv => alInsert acc kv.1 kv.2) d

/-- Filesystem plus result store, for the request handlers. -/
structure World where
  fs : List String
  store : Store
deriving DecidableEq

/-- app.save_document (lines 856-912), store and filesystem effects (the
Google-Sheets append is an external boundary and the disk read is assumed
to succeed, its content being fileBytes): mark the entry saved, merge the
corrections into parsed_data when that key exists, and delete the upload
file only after its bytes are held in image_data — reading them into the
entry first when they are not yet there. -/
def save_document (w : World) (image_id : String) (corrected : Dict)
    (fileBytes : List Nat) (cleanup_after : Bool) : World :=
  match alGet? w.store image_id with
  | none => w
  | some ent =>
    let ent₁ := { ent with is_saved := true }
    let ent₂ := match ent₁.parsed_data with
      | some pd => { ent₁ with parsed_data := some (dictUpdate pd corrected) }
      | none => ent₁
    match cleanup_after, ent₂.path with
    | true, some p =>
      if ent₂.image_data.isNone ∧ p ∈ w.fs then
        { fs := delete_file w.fs p,
          store := alInsert w.store image_id { ent₂ with image_data := some fileBytes } }
      else if p ∈ w.fs then
        { fs := delete_file w.fs p, store := alInsert w.store image_id ent₂ }
      else
        { fs := w.fs, store := alInsert w.store image_id ent₂ }
    | _, _ => { fs := w.fs, store := alInsert w.store image_id ent₂ }

/-- Responses of the polling endpoint. -/
inductive StatusResponse
  | completedResp (data : Dict)
  | errorResp (msg : String)
  | processingResp
  | notFoundResp
deriving DecidableEq

/-- app.check_status (lines 805-826): a completed job's response data is
recomputed on every poll by re-parsing the stored raw model text (a
completed entry always carries its data string, so the getD default is
never consulted in app flows). -/
def check_status (store : Store) (image_id : String)
    (session_document_type : String) : StatusResponse :=
  match alGet? store image_id with
  | none => .notFoundResp
  | some r =>
    match r.status with
    | .completed =>
      .completedResp (parse_extracted_text (r.data.getD "") session_document_type)
    | .error => .errorResp (r.error.getD "An unknown error occurred")
    | .processing => .processingResp

/-- The dictionary form of an extraction payload as normalised by
extract_passport_data (re-parse when still raw text). -/
def passportDataDict : ExtractionData → Dict
  | .text t => parsePlain t
  | .fields d => d

/-- Worker run used by the C1 theorems: an in-memory "check" task whose
model call raises with message e; every other external outcome succeeds. -/
def c1Run (e : String) : TaskResult :=
  runTask ["uploads/20240101_doc.png"]
    [("job1", uploadEntry "uploads/20240101_doc.png" [7, 7, 7])]
    (Task.memTask [7, 7, 7] "check" "job1") true (Except.ok ()) (Except.ok ())
    (fun _ => Except.error e) "/tmp/tmpabc.png" (Except.ok ())

/-- Worker run used by the C8 theorem: an in-memory "passport" task whose
model call succeeds. -/
def c8Run : TaskResult :=
  runTask ["uploads/20240101_pass.png"]
    [("job2", uploadEntry "uploads/20240101_pass.png" [1, 2])]
    (Task.memTask [1, 2] "passport" "job2") true (Except.ok ()) (Except.ok ())
    (fun _ => Except.ok "Passport Number: 123") "/tmp/tmppass.png" (Except.ok ())

/-- Fixture: a completed job entry carrying raw model text and the
separately stored parsed fields. -/
def c10Ent : Entry :=
  { status := Status.completed, path := some "uploads/c.png",
    image_data := some [9], data := some "A: 1",
    parsed_data := some [("A", "1")] }

/-- Fixture world holding the completed job. -/
def c10World : World := { fs := [], store := [("jc", c10Ent)] }

/- ### Parser lemmas -/

theorem splitOn_ne_nil (sep : Char) (s : List Char) : splitOn sep s ≠ [] := by
  cases s with
  | nil => simp [splitOn]
  | cons c cs =>
    simp only [splitOn]
    split
    · simp
    · cases h : splitOn sep cs <;> simp

theorem alInsert_length {κ α : Type} [DecidableEq κ]
    (d : List (κ × α)) (k : κ) (v : α) :
    (alInsert d k v).length ≤ d.length + 1 := by
  induction d with
  | nil => simp [alInsert]
  | cons p rest ih =>
    obtain ⟨k₀, v₀⟩ := p
    simp only [alInsert]
    split
    · simp
    · simpa using Nat.succ_le_succ ih

theorem alGet?_alInsert_self {κ α : Type} [DecidableEq κ]
    (d : List (κ × α)) (k : κ) (v : α) :
    alGet? (alInsert d k v) k = some v := by
  induction d with
  | nil => simp [alInsert, alGet?]
  | cons p rest ih =>
    obtain ⟨k₀, v₀⟩ := p
    simp only [alInsert]
    split
    next h => simp [alGet?, h]
    next h => simp [alGet?, h, ih]

theorem pyIsSpace_ne_colon {c : Char} (h : pyIsSpace c = true) : c ≠ ':' := by
  simp only [pyIsSpace, Bool.or_eq_true, beq_iff_eq] at h
  rcases h with ((((h | h) | h) | h) | h) | h <;> subst h <;> decide

theorem splitOn_cons_sep (sep : Char) (s : List Char) :
    splitOn sep (sep :: s) = [] :: splitOn sep s := by
  simp [splitOn]

theorem splitOn_cons_ne (sep c : Char) (s : List Char) (h : ¬c = sep)
    (l : List Char) (ls : List (List Char)) (hs : splitOn sep s = l :: ls) :
    splitOn sep (c :: s) = (c :: l) :: ls := by
  simp [splitOn, h, hs]

theorem ccountL_cons (l : List Char) (ls : List (List Char)) :
    ccountL (l :: ls) = (if ':' ∈ l then 1 else 0) + ccountL ls := by
  by_cases h : ':' ∈ l
  · rw [if_pos h]
    simp only [ccountL, List.filter_cons]
    rw [if_pos (by simpa using h)]
    simp only [List.length_cons]
    omega
  · rw [if_neg h]
    simp only [ccountL, List.filter_cons]
    rw [if_neg (by simpa using h)]
    omega

/-- Prepending a whitespace character to a text does not lower its
colon-containing line count. -/
theorem ccountL_le_cons_space {c : Char} (hc : pyIsSpace c = true)
    (s : List Char) :
    ccountL (splitOn '\n' s) ≤ ccountL (splitOn '\n' (c :: s)) := by
  by_cases hnl : c = '\n'
  · subst hnl
    rw [splitOn_cons_sep, ccountL_cons]
    simp
  · cases hs : splitOn '\n' s with
    | nil => exact absurd hs (splitOn_ne_nil _ _)
    | cons l ls =>
      have h2 : splitOn '\n' (c :: s) = (c :: l) :: ls :=
        splitOn_cons_ne '\n' c s hnl l ls hs
      rw [h2, ccountL_cons, ccountL_cons]
      have hmem : (':' ∈ l) → (':' ∈ c :: l) := fun h => List.mem_cons_of_mem _ h
      by_cases h : ':' ∈ l
      · rw [if_pos h, if_pos (hmem h)]
      · rw [if_neg h]
        split <;> omega

/-- Dropping a whitespace prefix does not raise the colon-line count. -/
theorem ccountL_dropWhile_le (s : List Char) :
    ccountL (splitOn '\n' (s.dropWhile pyIsSpace)) ≤ ccountL (splitOn '\n' s) := by
  induction s with
  | nil => simp
  | cons c cs ih =>
    by_cases h : pyIsSpace c
    · rw [List.dropWhile_cons_of_pos h]
      exact le_trans ih (ccountL_le_cons_space h cs)
    · rw [List.dropWhile_cons_of_neg h]

/-- Appending one character to the last chunk of a chunk list. -/
def appendLast (c : Char) : List (List Char) → List (List Char)
  | [] => [[c]]
  | [l] => [l ++ [c]]
  | l :: l₂ :: ls => l :: appendLast c (l₂ :: ls)

theorem appendLast_append (c : Char) (A : List (List Char)) (x : List Char) :
    appendLast c (A ++ [x]) = A ++ [x ++ [c]] := by
  induction A with
  | nil => simp [appendLast]
  | cons a A' ih =>
    cases A' with
    | nil => simp [appendLast]
    | cons b B => simpa [appendLast] using ih

theorem splitOn_append_singleton (sep : Char) (t : List Char) (c : Char) :
    splitOn sep (t ++ [c]) =
      if c = sep then splitOn sep t ++ [[]] else appendLast c (splitOn sep t) := by
  induction t with
  | nil =>
    by_cases hc : c = sep
    · subst hc
      rw [if_pos rfl]
      simp [splitOn]
    · rw [if_neg hc]
      simp [splitOn, hc, appendLast]
  | cons a t' ih =>
    have hstep : splitOn sep ((a :: t') ++ [c]) = splitOn sep (a :: (t' ++ [c])) := rfl
    cases ht : splitOn sep t' with
    | nil => exact absurd ht (splitOn_ne_nil _ _)
    | cons l ls =>
      by_cases ha : a = sep
      · rw [hstep, ha, splitOn_cons_sep, ih]
        by_cases hc : c = sep
        · rw [if_pos hc, if_pos hc, splitOn_cons_sep]
          simp
        · rw [if_neg hc, if_neg hc, splitOn_cons_sep, ht]
          rfl
      · by_cases hc : c = sep
        · have h1 : splitOn sep (t' ++ [c]) = l :: (ls ++ [[]]) := by
            rw [ih, if_pos hc, ht]; rfl
          rw [hstep, splitOn_cons_ne sep a _ ha _ _ h1, if_pos hc,
            splitOn_cons_ne sep a t' ha l ls ht]
          rfl
        · cases ls with
          | nil =>
            have h1 : splitOn sep (t' ++ [c]) = (l ++ [c]) :: [] := by
              rw [ih, if_neg hc, ht]; rfl
            rw [hstep, splitOn_cons_ne sep a _ ha _ _ h1, if_neg hc,
              splitOn_cons_ne sep a t' ha l [] ht]
            rfl
          | cons l₂ ls₂ =>
            have h1 : splitOn sep (t' ++ [c]) = l :: appendLast c (l₂ :: ls₂) := by
              rw [ih, if_neg hc, ht]; rfl
            rw [hstep, splitOn_cons_ne sep a _ ha _ _ h1, if_neg hc,
              splitOn_cons_ne sep a t' ha l (l₂ :: ls₂) ht]
            rfl

/-- Splitting a reversed text gives the reversed chunks, each reversed. -/
theorem splitOn_reverse (sep : Char) (s : List Char) :
    splitOn sep s.reverse = ((splitOn sep s).map List.reverse).reverse := by
  induction s with
  | nil => simp [splitOn]
  | cons c s' ih =>
    rw [List.reverse_cons, splitOn_append_singleton, ih]
    by_cases hc : c = sep
    · rw [if_pos hc]
      simp [splitOn, hc]
    · rw [if_neg hc]
      cases ht : splitOn sep s' with
      | nil => exact absurd ht (splitOn_ne_nil _ _)
      | cons l ls =>
        simp only [splitOn, ht, if_neg hc, List.map_cons, List.reverse_cons]
        rw [appendLast_append]

theorem ccountL_reverse (ls : List (List Char)) :
    ccountL ls.reverse = ccountL ls := by
  simp [ccountL, List.filter_reverse]

theorem ccountL_map_reverse (ls : List (List Char)) :
    ccountL (ls.map List.reverse) = ccountL ls := by
  induction ls with
  | nil => rfl
  | cons l ls ih =>
    rw [List.map_cons, ccountL_cons, ccountL_cons, ih]
    simp

/-- The colon-line count of a text and of its reversal agree. -/
theorem ccountL_splitOn_reverse (sep : Char) (s : List Char) :
    ccountL (splitOn sep s.reverse) = ccountL (splitOn sep s) := by
  rw [splitOn_reverse, ccountL_reverse, ccountL_map_reverse]

/-- Stripping outer whitespace does not raise the colon-line count. -/
theorem ccountL_pyStrip_le (s : List Char) :
    ccountL (splitOn '\n' (pyStrip s)) ≤ ccountL (splitOn '\n' s) := by
  unfold pyStrip
  calc ccountL (splitOn '\n' ((s.dropWhile pyIsSpace).reverse.dropWhile pyIsSpace).reverse)
      = ccountL (splitOn '\n' ((s.dropWhile pyIsSpace).reverse.dropWhile pyIsSpace)) :=
        ccountL_splitOn_reverse _ _
    _ ≤ ccountL (splitOn '\n' (s.dropWhile pyIsSpace).reverse) :=
        ccountL_dropWhile_le _
    _ = ccountL (splitOn '\n' (s.dropWhile pyIsSpace)) :=
        ccountL_splitOn_reverse _ _
    _ ≤ ccountL (splitOn '\n' s) := ccountL_dropWhile_le _

theorem foldl_parseStep_length (ls : List (List Char)) (d : Dict) :
    (ls.foldl parseStep d).length ≤ d.length + ccountL ls := by
  induction ls generalizing d with
  | nil => simp [ccountL]
  | cons l ls ih =>
    rw [List.foldl_cons, ccountL_cons]
    refine le_trans (ih (parseStep d l)) ?_
    by_cases h : ':' ∈ l
    · have : (parseStep d l).length ≤ d.length + 1 := by
        simpa [parseStep, h] using alInsert_length d _ _
      rw [if_pos h]
      omega
    · simp only [parseStep, if_neg h, if_neg h]
      omega

/-- The size of a parse result is bounded by the raw text's number of
colon-containing lines. -/
theorem parse_extracted_text_length_le (text document_type : String) :
    (parse_extracted_text text document_type).length ≤ colonLineCount text := by
  unfold parse_extracted_text
  split
  · simp
  · calc ((splitOn '\n' (pyStrip text.data)).foldl parseStep []).length
        ≤ [].length + ccountL (splitOn '\n' (pyStrip text.data)) :=
          foldl_parseStep_length _ _
      _ ≤ ccountL (splitOn '\n' text.data) := by
          simpa using ccountL_pyStrip_le text.data
      _ = colonLineCount text := rfl

/- ### Claim theorems -/

/-- C7: for every document type outside passport/check/invoice, the field
extractor does not fail: the instruction lookup silently falls back to
the passport template and the prompt is composed from it (image
placeholder token, newline, instruction, blank line). -/
theorem c7_unknown_type_defaults_passport (dt : String)
    (h₁ : dt ≠ "passport") (h₂ : dt ≠ "check") (h₃ : dt ≠ "invoice") :
    systemInstructionFor dt = passport_instruction ∧
    promptFor dt = "<image>\n" ++ passport_instruction ++ "\n\n" := by
  have hget : alGet? system_instructions dt = none := by
    simp [system_instructions, alGet?, Ne.symm h₁, Ne.symm h₂, Ne.symm h₃]
  exact ⟨by simp [systemInstructionFor, hget],
         by simp [promptFor, systemInstructionFor, hget]⟩

/-- C7 witness: the fallback at the concrete unknown type "unknown_type". -/
theorem c7_unknown_type_defaults_passport_witness :
    ("unknown_type" : String) ≠ "passport" ∧
    systemInstructionFor "unknown_type" = passport_instruction := by
  refine ⟨by decide, ?_⟩
  exact (c7_unknown_type_defaults_passport "unknown_type"
    (by decide) (by decide) (by decide)).1

/-- C3: for every decodable image (positive dimensions), any aspect ratio
and any initial size — including below the minimum — the normalizer's
output is exactly input_size × input_size with 3 channels in RGB mode. -/
theorem c3_normalizer_output_square (w h input_size min_size : Nat)
    (hw : 0 < w) (hh : 0 < h) :
    (preprocess_image w h input_size min_size).out_w = input_size ∧
    (preprocess_image w h input_size min_size).out_h = input_size ∧
    (preprocess_image w h input_size min_size).channels = 3 ∧
    (preprocess_image w h input_size min_size).mode = "RGB" := by
  have hle : input_size ≤
      max (max (minSizeResize w h min_size).1 (minSizeResize w h min_size).2)
        input_size := le_max_right _ _
  simp only [preprocess_image]
  by_cases hgt :
      max (max (minSizeResize w h min_size).1 (minSizeResize w h min_size).2)
        input_size > input_size
  · rw [if_pos hgt]
    exact ⟨rfl, rfl, rfl, rfl⟩
  · rw [if_neg hgt]
    have heq :
        max (max (minSizeResize w h min_size).1 (minSizeResize w h min_size).2)
          input_size = input_size := by omega
    exact ⟨heq, heq, rfl, rfl⟩

/-- C3 witness: a large landscape input and a degenerate 1×1 input both
normalise to the 448-pixel square. -/
theorem c3_normalizer_output_square_witness :
    ((0 : Nat) < 3000 ∧ (0 : Nat) < 2000 ∧ (0 : Nat) < 1) ∧
    (preprocess_image 3000 2000 448 14).out_w = 448 ∧
    (preprocess_image 3000 2000 448 14).out_h = 448 ∧
    (preprocess_image 3000 2000 448 14).channels = 3 ∧
    (preprocess_image 1 1 448 14).out_w = 448 := by
  refine ⟨by decide, ?_, ?_, ?_, ?_⟩
  · exact (c3_normalizer_output_square 3000 2000 448 14 (by decide) (by decide)).1
  · exact (c3_normalizer_output_square 3000 2000 448 14 (by decide) (by decide)).2.1
  · exact (c3_normalizer_output_square 3000 2000 448 14 (by decide) (by decide)).2.2.1
  · exact (c3_normalizer_output_square 1 1 448 14 (by decide) (by decide)).1

/-- C4 failing-input evaluation: a 1×1 input is upscaled to 14×14 by the
minimum-size step, but the paste offsets are computed from the stale
pre-upscale dimensions (448 − 1)//2 = 223, while pasting the 14×14 image
centred on the 448 canvas requires (448 − 14)//2 = 217: the upscaled
image is pasted off-centre. -/
theorem c4_paste_offset_uses_stale_dims :
    (preprocess_image 1 1 448 14).resized_w = 14 ∧
    (preprocess_image 1 1 448 14).resized_h = 14 ∧
    (preprocess_image 1 1 448 14).square_size = 448 ∧
    (preprocess_image 1 1 448 14).paste_x = 223 ∧
    (preprocess_image 1 1 448 14).paste_y = 223 ∧
    ((preprocess_image 1 1 448 14).square_size -
      (preprocess_image 1 1 448 14).resized_w) / 2 = 217 ∧
    (preprocess_image 1 1 448 14).paste_x ≠
      ((preprocess_image 1 1 448 14).square_size -
        (preprocess_image 1 1 448 14).resized_w) / 2 := by
  have hmin : minSizeResize 1 1 14 = (14, 14) := by
    unfold minSizeResize
    rw [if_pos (by norm_num)]
    norm_num [Int.floor_ofNat]
  have hpre : preprocess_image 1 1 448 14 =
      { out_w := 448, out_h := 448, channels := 3, mode := "RGB",
        paste_x := 223, paste_y := 223, square_size := 448,
        resized_w := 14, resized_h := 14 } := by
    simp only [preprocess_image, hmin]
    decide
  rw [hpre]
  refine ⟨rfl, rfl, rfl, rfl, rfl, by decide, by decide⟩

/-- C2: the parser splits the text on line breaks; a line without a colon
contributes nothing; a colon line is split at the first colon only, both
sides trimmed, and stored with later duplicates overwriting earlier ones
(last-wins); and for a text with N colon-containing lines (and any number
of colon-free lines) the resulting mapping has at most N entries. -/
theorem c2_parser_spec (text document_type : String) :
    (∀ (d : Dict) (line : List Char), ':' ∉ line → parseStep d line = d) ∧
    (∀ (d : Dict) (line : List Char), ':' ∈ line →
      parseStep d line =
        alInsert d ⟨pyStrip (splitFirst ':' line).1⟩
          ⟨pyStrip (splitFirst ':' line).2⟩) ∧
    (∀ (d : Dict) (k v : String), alGet? (alInsert d k v) k = some v) ∧
    (parse_extracted_text text document_type).length ≤ colonLineCount text := by
  refine ⟨?_, ?_, ?_, parse_extracted_text_length_le text document_type⟩
  · intro d line hno
    simp [parseStep, hno]
  · intro d line hyes
    simp [parseStep, hyes]
  · intro d k v
    exact alGet?_alInsert_self d k v

/-- C2 witness: the check-scenario text with one garbled line has at most
two entries, and the garbled line alone contributes nothing. -/
theorem c2_parser_spec_witness :
    (parse_extracted_text
        "Bank Name: ABC Bank\nGarbled line\nCheck Number: 1234" "check").length ≤
      colonLineCount "Bank Name: ABC Bank\nGarbled line\nCheck Number: 1234" ∧
    parseStep [] "Garbled line".data = [] := by
  constructor
  · exact (c2_parser_spec
      "Bank Name: ABC Bank\nGarbled line\nCheck Number: 1234" "check").2.2.2
  · exact (c2_parser_spec "" "").1 [] "Garbled line".data (by decide)

/-- C5: the passport export row always has exactly 18 cells — the filename
followed by the 17 named passport fields in the fixed header order, a
missing field rendering as the sentinel "NA" — whether the payload is a
parsed mapping or still raw text; and the renderer's passport branch
emits the fixed 18-column header followed by one such row per result. -/
theorem c5_passport_row_schema (fn : String) (ed : ExtractionData)
    (rs : List CsvItem) :
    (extract_passport_data fn ed).length = 18 ∧
    passport_headers.length = 18 ∧
    extract_passport_data fn ed =
      fn :: passport_field_keys.map (fun k => dictGetD (passportDataDict ed) k "NA") ∧
    passport_headers = "Filename" :: passport_field_keys ∧
    (∀ (d : Dict) (k : String), dictHasKey d k = false → dictGetD d k "NA" = "NA") ∧
    convert_to_csv_rows rs (some "passport") =
      passport_headers ::
        rs.map (fun r => extract_passport_data r.filename r.extraction_data) := by
  refine ⟨?_, by decide, ?_, by decide, ?_, rfl⟩
  · cases ed <;> rfl
  · cases ed <;> rfl
  · intro d k hk
    unfold dictGetD
    unfold dictHasKey at hk
    cases h : alGet? d k with
    | none => rfl
    | some v => rw [h] at hk; simp at hk

/-- C5 witness: a concrete mapping missing the Gender field renders an
18-cell row with "NA" in the Gender column. -/
theorem c5_passport_row_schema_witness :
    (extract_passport_data "p.png"
      (ExtractionData.fields [("Passport Number", "X123")])).length = 18 ∧
    dictHasKey [("Passport Number", "X123")] "Gender" = false ∧
    dictGetD [("Passport Number", "X123")] "Gender" "NA" = "NA" := by
  refine ⟨(c5_passport_row_schema "p.png"
      (ExtractionData.fields [("Passport Number", "X123")]) []).1, by decide, ?_⟩
  exact (c5_passport_row_schema "p.png"
      (ExtractionData.fields [("Passport Number", "X123")]) []).2.2.2.2.1
    [("Passport Number", "X123")] "Gender" (by decide)

/-- C6: for every document type outside passport/check/invoice (and for a
missing or empty type, which the source maps to "unknown") the export
renderer is total and produces the two-column generic table: the header
(Filename, Extraction Data) followed by one two-cell row per result. -/
theorem c6_generic_fallback (dto : Option String) (rs : List CsvItem)
    (hgen : ∀ s, dto = some s → s ≠ "passport" ∧ s ≠ "check" ∧ s ≠ "invoice") :
    convert_to_csv_rows rs dto =
      ["Filename", "Extraction Data"] ::
        rs.map (fun r => [r.filename, pyStrOfData r.extraction_data]) ∧
    (∀ row ∈ convert_to_csv_rows rs dto, row.length = 2) := by
  have hmain : convert_to_csv_rows rs dto =
      ["Filename", "Extraction Data"] ::
        rs.map (fun r => [r.filename, pyStrOfData r.extraction_data]) := by
    cases dto with
    | none => rfl
    | some s =>
      by_cases hs : s = ""
      · subst hs; rfl
      · obtain ⟨h₁, h₂, h₃⟩ := hgen s rfl
        simp [convert_to_csv_rows, hs, h₁, h₂, h₃]
  refine ⟨hmain, ?_⟩
  intro row hrow
  rw [hmain] at hrow
  rcases List.mem_cons.mp hrow with hhead | htail
  · subst hhead; rfl
  · obtain ⟨r, _, hr⟩ := List.mem_map.mp htail
    rw [← hr]
    rfl

/-- C6 witness: the renderer at the concrete unknown type "unknown_type"
on a one-result list. -/
theorem c6_generic_fallback_witness :
    convert_to_csv_rows [⟨"f.png", ExtractionData.text "abc"⟩]
        (some "unknown_type") =
      [["Filename", "Extraction Data"], ["f.png", "abc"]] := by
  have h := (c6_generic_fallback (some "unknown_type")
    [⟨"f.png", ExtractionData.text "abc"⟩]
    (fun s hs => by
      injection hs with h
      subst h
      exact ⟨by decide, by decide, by decide⟩)).1
  simpa [pyStrOfData] using h

/- ### Worker-model lemmas -/

theorem delete_file_eq_of_removed (fs : List String) (p q : String)
    (hq : q ∈ fs) (hout : q ∉ delete_file fs p) : q = p := by
  unfold delete_file at hout
  split at hout
  · by_contra hne
    exact hout ((List.mem_erase_of_ne hne).mpr hq)
  · exact absurd hq hout

theorem not_mem_delete_file (fs : List String) (p q : String) (h : q ∉ fs) :
    q ∉ delete_file fs p := by
  unfold delete_file
  split
  · intro hmem
    exact h (List.mem_of_mem_erase hmem)
  · exact h

theorem delete_file_cons_self (fs : List String) (t : String) :
    delete_file (t :: fs) t = fs := by
  unfold delete_file
  rw [if_pos (List.mem_cons_self t fs)]
  exact List.erase_cons_head t fs

/-- The finally-block cleanup either stops after the temp deletion or
additionally deletes the path recorded in the looked-up entry, and in the
latter case only under the captured-bytes guard. -/
theorem finallyCleanup_cases (fs : List String) (store : Store) (id : String)
    (temp : Option String) (inMem cfg : Bool) :
    ∃ fs₁, (fs₁ = match temp with | some t => delete_file fs t | none => fs) ∧
      (finallyCleanup fs store id temp inMem cfg = fs₁ ∨
       ∃ ent orig, alGet? store id = some ent ∧ ent.path = some orig ∧
         ent.image_data.isSome = true ∧
         finallyCleanup fs store id temp inMem cfg = delete_file fs₁ orig) := by
  refine ⟨_, rfl, ?_⟩
  simp only [finallyCleanup]
  by_cases hcond : ¬inMem ∧ cfg
  · rw [if_pos hcond]
    split
    · exact Or.inl rfl
    · rename_i ent hga
      split
      · exact Or.inl rfl
      · rename_i orig hpath
        split
        · rename_i hguard
          exact Or.inr ⟨ent, orig, hga, hpath, hguard.1, rfl⟩
        · exact Or.inl rfl
  · rw [if_neg hcond]
    exact Or.inl rfl

theorem finallyCleanup_not_mem (fs : List String) (store : Store) (id : String)
    (temp : Option String) (inMem cfg : Bool) (q : String) (hq : q ∉ fs) :
    q ∉ finallyCleanup fs store id temp inMem cfg := by
  obtain ⟨fs₁, hfs₁, hor⟩ := finallyCleanup_cases fs store id temp inMem cfg
  have hq₁ : q ∉ fs₁ := by
    cases temp with
    | none => rw [hfs₁]; exact hq
    | some t => rw [hfs₁]; exact not_mem_delete_file fs t q hq
  rcases hor with heq | ⟨_, orig, _, _, _, heq⟩
  · rw [heq]; exact hq₁
  · rw [heq]; exact not_mem_delete_file fs₁ orig q hq₁

theorem finallyCleanup_temp_not_mem (fs : List String) (store : Store)
    (id : String) (inMem cfg : Bool) (t : String) (h : t ∉ fs) :
    t ∉ finallyCleanup (t :: fs) store id (some t) inMem cfg := by
  obtain ⟨fs₁, hfs₁, hor⟩ :=
    finallyCleanup_cases (t :: fs) store id (some t) inMem cfg
  have hq₁ : t ∉ fs₁ := by
    rw [hfs₁]
    simp only []
    rw [delete_file_cons_self fs t]
    exact h
  rcases hor with heq | ⟨_, orig, _, _, _, heq⟩
  · rw [heq]; exact hq₁
  · rw [heq]; exact not_mem_delete_file fs₁ orig t hq₁

theorem finallyCleanup_removed (fs : List String) (store : Store) (id : String)
    (temp : Option String) (inMem cfg : Bool) (q : String)
    (hq : q ∈ fs) (hout : q ∉ finallyCleanup fs store id temp inMem cfg) :
    temp = some q ∨
      ∃ ent, alGet? store id = some ent ∧ ent.path = some q ∧
        ent.image_data.isSome = true := by
  obtain ⟨fs₁, hfs₁, hor⟩ := finallyCleanup_cases fs store id temp inMem cfg
  rcases hor with heq | ⟨ent, orig, hga, hpath, hbytes, heq⟩
  · rw [heq, hfs₁] at hout
    cases temp with
    | none => exact absurd hq hout
    | some t =>
      have := delete_file_eq_of_removed fs t q hq hout
      exact Or.inl (by rw [this])
  · rw [heq] at hout
    by_cases hq₁ : q ∈ fs₁
    · have hqo : q = orig := delete_file_eq_of_removed fs₁ orig q hq₁ hout
      exact Or.inr ⟨ent, hga, by rw [hpath, hqo], hbytes⟩
    · rw [hfs₁] at hq₁
      cases temp with
      | none => exact absurd hq hq₁
      | some t =>
        have := delete_file_eq_of_removed fs t q hq hq₁
        exact Or.inl (by rw [this])

theorem completeStore_entry (store : Store) (id image_path extracted : String)
    (o : Entry) (pth : String) (h : alGet? store id = some o)
    (hp : o.path = some pth) :
    ∃ E, alGet? (completeStore store id image_path extracted) id = some E ∧
      E.status = Status.completed ∧ E.data = some extracted ∧
      E.path = some pth ∧ E.image_data = o.image_data := by
  simp only [completeStore, h]
  exact ⟨_, alGet?_alInsert_self _ _ _, rfl, rfl, by simp [hp], rfl⟩

theorem pedbt_entry (store : Store) (id dt extracted : String) (E : Entry)
    (pth : String) (h : alGet? store id = some E) (hp : E.path = some pth) :
    ∃ E₂, alGet? (process_extracted_data_by_type store id dt extracted).1 id =
        some E₂ ∧ E₂.path = some pth ∧ E₂.image_data = E.image_data := by
  simp only [process_extracted_data_by_type, h]
  by_cases hdt : dt = "check"
  · simp only [hdt, if_pos]
    rw [hp]
    exact ⟨_, alGet?_alInsert_self _ _ _, by simp [hp], rfl⟩
  · rw [if_neg hdt]
    exact ⟨_, alGet?_alInsert_self _ _ _, by simp [hp], rfl⟩

theorem bailErrorStore_entry (store : Store) (id msg : String) (ent : Entry)
    (h : alGet? store id = some ent) :
    alGet? (bailErrorStore store id msg) id =
      some { ent with status := Status.error, error := some msg } := by
  simp only [bailErrorStore, h]
  exact alGet?_alInsert_self _ _ _

theorem mainPhase_not_mem (fs : List String) (store : Store)
    (dt id ip : String) (inMem : Bool) (temp : Option String) (cfg : Bool)
    (load : Except String Unit) (pre : Except String Unit)
    (chat : String → Except String String) (q : String) (hq : q ∉ fs) :
    q ∉ (mainPhase fs store dt id ip inMem temp cfg load pre chat).fs := by
  cases load with
  | error le =>
    simp only [mainPhase]
    cases temp with
    | none => exact finallyCleanup_not_mem _ _ _ _ _ _ _ hq
    | some t =>
      exact not_mem_delete_file _ _ _ (finallyCleanup_not_mem _ _ _ _ _ _ _ hq)
  | ok u =>
    simp only [mainPhase]
    cases hsnd : (process_extracted_data_by_type
        (completeStore store id ip (process_document_image dt pre chat)) id dt
        (process_document_image dt pre chat)).2 with
    | none =>
      simp only [hsnd]
      exact finallyCleanup_not_mem _ _ _ _ _ _ _ hq
    | some e =>
      simp only [hsnd]
      cases temp with
      | none => exact finallyCleanup_not_mem _ _ _ _ _ _ _ hq
      | some t =>
        exact not_mem_delete_file _ _ _ (finallyCleanup_not_mem _ _ _ _ _ _ _ hq)

theorem mainPhase_temp_removed (fs : List String) (store : Store)
    (dt id ip : String) (inMem : Bool) (cfg : Bool)
    (load : Except String Unit) (pre : Except String Unit)
    (chat : String → Except String String) (t : String) (ht : t ∉ fs) :
    t ∉ (mainPhase (t :: fs) store dt id ip inMem (some t) cfg load pre chat).fs := by
  cases load with
  | error le =>
    simp only [mainPhase]
    exact not_mem_delete_file _ _ _ (finallyCleanup_temp_not_mem _ _ _ _ _ _ ht)
  | ok u =>
    simp only [mainPhase]
    cases hsnd : (process_extracted_data_by_type
        (completeStore store id ip (process_document_image dt pre chat)) id dt
        (process_document_image dt pre chat)).2 with
    | none =>
      simp only [hsnd]
      exact finallyCleanup_temp_not_mem _ _ _ _ _ _ ht
    | some e =>
      simp only [hsnd]
      exact not_mem_delete_file _ _ _ (finallyCleanup_temp_not_mem _ _ _ _ _ _ ht)

theorem mainPhase_removed (fs : List String) (store : Store)
    (dt id ip : String) (inMem : Bool) (temp : Option String) (cfg : Bool)
    (load : Except String Unit) (pre : Except String Unit)
    (chat : String → Except String String) (ent : Entry) (orig : String)
    (h : alGet? store id = some ent) (hp : ent.path = some orig) (q : String)
    (hq : q ∈ fs)
    (hout : q ∉ (mainPhase fs store dt id ip inMem temp cfg load pre chat).fs) :
    temp = some q ∨ (q = orig ∧ ent.image_data.isSome = true) := by
  cases load with
  | error le =>
    simp only [mainPhase] at hout
    cases temp with
    | none =>
      rcases finallyCleanup_removed fs store id none inMem cfg q hq hout with
        hT | ⟨e, hga, hep, hei⟩
      · exact absurd hT (by simp)
      · rw [h] at hga
        injection hga with he
        subst he
        rw [hp] at hep
        injection hep with he2
        exact Or.inr ⟨he2.symm, hei⟩
    | some t =>
      by_cases hq₁ : q ∈ finallyCleanup fs store id (some t) inMem cfg
      · have hqt := delete_file_eq_of_removed _ t q hq₁ hout
        exact Or.inl (by rw [hqt])
      · rcases finallyCleanup_removed fs store id (some t) inMem cfg q hq hq₁ with
          hT | ⟨e, hga, hep, hei⟩
        · exact Or.inl hT
        · rw [h] at hga
          injection hga with he
          subst he
          rw [hp] at hep
          injection hep with he2
          exact Or.inr ⟨he2.symm, hei⟩
  | ok u =>
    obtain ⟨E₁, hE₁, _, _, hE₁p, hE₁i⟩ :=
      completeStore_entry store id ip (process_document_image dt pre chat)
        ent orig h hp
    obtain ⟨E₂, hE₂, hE₂p, hE₂i⟩ :=
      pedbt_entry (completeStore store id ip (process_document_image dt pre chat))
        id dt (process_document_image dt pre chat) E₁ orig hE₁ hE₁p
    have hbytes : E₂.image_data = ent.image_data := by rw [hE₂i, hE₁i]
    cases hsnd : (process_extracted_data_by_type
        (completeStore store id ip (process_document_image dt pre chat)) id dt
        (process_document_image dt pre chat)).2 with
    | none =>
      simp only [mainPhase, hsnd] at hout
      rcases finallyCleanup_removed _ _ _ _ _ _ q hq hout with
        hT | ⟨e, hga, hep, hei⟩
      · exact Or.inl hT
      · rw [hE₂] at hga
        injection hga with he
        subst he
        rw [hE₂p] at hep
        injection hep with he2
        rw [hbytes] at hei
        exact Or.inr ⟨he2.symm, hei⟩
    | some ex =>
      simp only [mainPhase, hsnd] at hout
      cases temp with
      | none =>
        rcases finallyCleanup_removed _ _ _ _ _ _ q hq hout with
          hT | ⟨e, hga, hep, hei⟩
        · exact absurd hT (by simp)
        · rw [hE₂] at hga
          injection hga with he
          subst he
          rw [hE₂p] at hep
          injection hep with he2
          rw [hbytes] at hei
          exact Or.inr ⟨he2.symm, hei⟩
      | some t =>
        by_cases hq₁ : q ∈ finallyCleanup fs
            (process_extracted_data_by_type
              (completeStore store id ip (process_document_image dt pre chat)) id
              dt (process_document_image dt pre chat)).1 id (some t) inMem cfg
        · have hqt := delete_file_eq_of_removed _ t q hq₁ hout
          exact Or.inl (by rw [hqt])
        · rcases finallyCleanup_removed _ _ _ _ _ _ q hq hq₁ with
            hT | ⟨e, hga, hep, hei⟩
          · exact Or.inl hT
          · rw [hE₂] at hga
            injection hga with he
            subst he
            rw [hE₂p] at hep
            injection hep with he2
            rw [hbytes] at hei
            exact Or.inr ⟨he2.symm, hei⟩

theorem save_document_entry (w : World) (image_id : String) (corrected : Dict)
    (fileBytes : List Nat) (cleanup_after : Bool) (ent : Entry)
    (h : alGet? w.store image_id = some ent) :
    ∃ e₂, alGet? (save_document w image_id corrected fileBytes cleanup_after).store
        image_id = some e₂ ∧
      e₂.status = ent.status ∧ e₂.data = ent.data ∧ e₂.error = ent.error ∧
      e₂.parsed_data = ent.parsed_data.map (fun pd => dictUpdate pd corrected) := by
  simp only [save_document, h]
  cases hpd : ent.parsed_data with
  | none =>
    simp only [hpd]
    split
    · split
      · exact ⟨_, alGet?_alInsert_self _ _ _, rfl, rfl, rfl, by simp [hpd]⟩
      · split
        · exact ⟨_, alGet?_alInsert_self _ _ _, rfl, rfl, rfl, by simp [hpd]⟩
        · exact ⟨_, alGet?_alInsert_self _ _ _, rfl, rfl, rfl, by simp [hpd]⟩
    · exact ⟨_, alGet?_alInsert_self _ _ _, rfl, rfl, rfl, by simp [hpd]⟩
  | some pd =>
    simp only [hpd]
    split
    · split
      · exact ⟨_, alGet?_alInsert_self _ _ _, rfl, rfl, rfl, by simp [hpd]⟩
      · split
        · exact ⟨_, alGet?_alInsert_self _ _ _, rfl, rfl, rfl, by simp [hpd]⟩
        · exact ⟨_, alGet?_alInsert_self _ _ _, rfl, rfl, rfl, by simp [hpd]⟩
    · exact ⟨_, alGet?_alInsert_self _ _ _, rfl, rfl, rfl, by simp [hpd]⟩

theorem save_document_delete_safe (w : World) (jid : String) (corr : Dict)
    (fb : List Nat) (cu : Bool) (p : String) (hp : p ∈ w.fs)
    (hout : p ∉ (save_document w jid corr fb cu).fs) :
    ∃ e₂, alGet? (save_document w jid corr fb cu).store jid = some e₂ ∧
      e₂.path = some p ∧ e₂.image_data.isSome = true := by
  cases hga : alGet? w.store jid with
  | none =>
    simp only [save_document, hga] at hout
    exact absurd hp hout
  | some ent =>
    simp only [save_document, hga] at hout ⊢
    cases hpd : ent.parsed_data with
    | none =>
      simp only [hpd] at hout ⊢
      split at hout
      · rename_i pth hmatch
        split at hout
        · rename_i hc1
          have hppth := delete_file_eq_of_removed w.fs pth p hp hout
          subst hppth
          rw [if_pos hc1]
          refine ⟨_, alGet?_alInsert_self _ _ _, ?_, ?_⟩
          · simp [hmatch]
          · simp
        · rename_i hc1
          split at hout
          · rename_i hc2
            have hppth := delete_file_eq_of_removed w.fs pth p hp hout
            subst hppth
            rw [if_neg hc1, if_pos hc2]
            refine ⟨_, alGet?_alInsert_self _ _ _, ?_, ?_⟩
            · simp [hmatch]
            · cases hbytes : ent.image_data with
              | none => exact absurd ⟨by simp [hbytes], hc2⟩ hc1
              | some b => simp [hbytes]
          · exact absurd hp hout
      · exact absurd hp hout
    | some pd =>
      simp only [hpd] at hout ⊢
      split at hout
      · rename_i pth hmatch
        split at hout
        · rename_i hc1
          have hppth := delete_file_eq_of_removed w.fs pth p hp hout
          subst hppth
          rw [if_pos hc1]
          refine ⟨_, alGet?_alInsert_self _ _ _, ?_, ?_⟩
          · simp [hmatch]
          · simp
        · rename_i hc1
          split at hout
          · rename_i hc2
            have hppth := delete_file_eq_of_removed w.fs pth p hp hout
            subst hppth
            rw [if_neg hc1, if_pos hc2]
            refine ⟨_, alGet?_alInsert_self _ _ _, ?_, ?_⟩
            · simp [hmatch]
            · cases hbytes : ent.image_data with
              | none => exact absurd ⟨by simp [hbytes], hc2⟩ hc1
              | some b => simp [hbytes]
          · exact absurd hp hout
      · exact absurd hp hout

/- ### Remaining claim theorems -/

/-- C1 counterexample: a concrete check job whose model call raises
"boom" ends in the result store with status completed, not error — the
claim as stated fails on the code, because process_document_image catches
the exception and returns the message text as the extraction result. -/
theorem c1_claim_counterexample :
    (alGet? (c1Run "boom").store "job1").map Entry.status =
      some Status.completed ∧
    (alGet? (c1Run "boom").store "job1").map Entry.status ≠
      some Status.error := by
  have h1 : (alGet? (c1Run "boom").store "job1").map Entry.status =
      some Status.completed := rfl
  refine ⟨h1, ?_⟩
  intro hcontra
  rw [h1] at hcontra
  injection hcontra with hc
  exact Status.noConfusion hc

/-- C1 (amended): for every exception message e raised by the model call
on a check job, the extractor catches it and returns the text
"Error processing image: e"; the worker then records the job as completed
with that non-empty string stored as its data.  The entry's status is
written exactly once, so the job is never left at processing and is never
marked error by this path. -/
theorem c1_amended_model_error_marks_completed (e : String) :
    (alGet? (c1Run e).store "job1").map Entry.status = some Status.completed ∧
    ((alGet? (c1Run e).store "job1").bind Entry.data) =
      some ("Error processing image: " ++ e) ∧
    ("Error processing image: " ++ e) ≠ "" ∧
    (c1Run e).statusWrites = [Status.completed] := by
  refine ⟨rfl, rfl, ?_, rfl⟩
  intro hcontra
  have hl := congrArg String.length hcontra
  rw [String.length_append] at hl
  have h24 : ("Error processing image: " : String).length = 24 := rfl
  have h0 : ("" : String).length = 0 := rfl
  rw [h24, h0] at hl
  omega

/-- C8 failing-input evaluation: a passport job begins at processing (its
upload entry), the worker then assigns the status field twice — completed,
then error — because the renderer raises UnboundLocalError right after
the completed write, and the job's final entry is an error entry carrying
that message: completed is not terminal and the status is written more
than once, refuting the forward-only single-write invariant. -/
theorem c8_status_double_transition :
    (uploadEntry "uploads/20240101_pass.png" [1, 2]).status = Status.processing ∧
    c8Run.statusWrites = [Status.completed, Status.error] ∧
    (alGet? c8Run.store "job2").map Entry.status = some Status.error ∧
    (alGet? c8Run.store "job2").bind Entry.error = some unbound_local_message := by
  exact ⟨rfl, rfl, rfl, rfl⟩

/-- C10: a status poll of a completed job recomputes its payload by
re-parsing the stored raw model text; save_document changes neither the
status nor the raw text — it merges the corrections into the separately
stored parsed_data — so the poll response is identical before and after a
save and never reflects the corrections. -/
theorem c10_poll_ignores_corrections (w : World) (image_id dt : String)
    (corrected : Dict) (fileBytes : List Nat) (cleanup_after : Bool) :
    check_status (save_document w image_id corrected fileBytes cleanup_after).store
        image_id dt = check_status w.store image_id dt ∧
    (∀ ent t, alGet? w.store image_id = some ent → ent.status = Status.completed →
      ent.data = some t →
      check_status w.store image_id dt =
        StatusResponse.completedResp (parse_extracted_text t dt)) ∧
    (∀ ent pd, alGet? w.store image_id = some ent → ent.parsed_data = some pd →
      ∃ e₂, alGet? (save_document w image_id corrected fileBytes cleanup_after).store
          image_id = some e₂ ∧
        e₂.parsed_data = some (dictUpdate pd corrected)) := by
  refine ⟨?_, ?_, ?_⟩
  · cases h : alGet? w.store image_id with
    | none =>
      have hw : save_document w image_id corrected fileBytes cleanup_after = w := by
        simp [save_document, h]
      rw [hw]
    | some ent =>
      obtain ⟨e₂, he₂, hst, hdata, herr, _⟩ :=
        save_document_entry w image_id corrected fileBytes cleanup_after ent h
      simp only [check_status, he₂, h]
      rw [hst, hdata, herr]
  · intro ent t h hst hdata
    simp only [check_status, h, hst, hdata]
    rfl
  · intro ent pd h hpd
    obtain ⟨e₂, he₂, _, _, _, hpd₂⟩ :=
      save_document_entry w image_id corrected fileBytes cleanup_after ent h
    rw [hpd] at hpd₂
    exact ⟨e₂, he₂, hpd₂⟩

/-- C10 witness: saving a correction on a concrete completed job leaves
the poll response unchanged while the stored parsed_data has absorbed the
correction. -/
theorem c10_poll_ignores_corrections_witness :
    check_status (save_document c10World "jc" [("A", "2")] [] true).store
        "jc" "check" = check_status c10World.store "jc" "check" ∧
    (∃ e₂, alGet? (save_document c10World "jc" [("A", "2")] [] true).store
        "jc" = some e₂ ∧
      e₂.parsed_data = some (dictUpdate [("A", "1")] [("A", "2")])) := by
  refine ⟨(c10_poll_ignores_corrections c10World "jc" "check"
      [("A", "2")] [] true).1, ?_⟩
  exact (c10_poll_ignores_corrections c10World "jc" "check"
      [("A", "2")] [] true).2.2 c10Ent [("A", "1")] rfl rfl

/-- C9: for every worker task whose job id has a registered entry with a
recorded upload path (as upload guarantees) and every combination of
external outcomes, the task's temporary file is gone from the filesystem
on every exit path; any other file the task deleted is exactly the
entry's recorded upload path, deleted only while the raw bytes were
captured in the entry's image_data; and the save handler deletes the
upload file only leaving an entry holding both the path and the bytes. -/
theorem c9_file_cleanup_safety
    (fs₀ : List String) (store₀ : Store) (task : Task) (cfg : Bool)
    (loadRes : Except String Unit) (preRes : Except String Unit)
    (chat : String → Except String String) (tempPath : String)
    (writeRes : Except String Unit) (ent₀ : Entry) (orig : String)
    (hid : alGet? store₀ task.image_id = some ent₀)
    (hpath : ent₀.path = some orig)
    (hfresh : tempPath ∉ fs₀) :
    tempPath ∉ (runTask fs₀ store₀ task cfg loadRes preRes chat tempPath writeRes).fs ∧
    (∀ q, q ∈ fs₀ →
      q ∉ (runTask fs₀ store₀ task cfg loadRes preRes chat tempPath writeRes).fs →
      q = orig ∧ ent₀.image_data.isSome = true) ∧
    (∀ (w : World) (jid : String) (corr : Dict) (fb : List Nat) (cu : Bool)
        (p : String), p ∈ w.fs → p ∉ (save_document w jid corr fb cu).fs →
      ∃ e₂, alGet? (save_document w jid corr fb cu).store jid = some e₂ ∧
        e₂.path = some p ∧ e₂.image_data.isSome = true) := by
  refine ⟨?_, ?_,
    fun w jid corr fb cu p hp hout =>
      save_document_delete_safe w jid corr fb cu p hp hout⟩
  · cases task with
    | memTask buf dt id =>
      simp only [Task.image_id] at hid
      cases writeRes with
      | error we =>
        simp only [runTask, hid, hpath]
        exact finallyCleanup_temp_not_mem _ _ _ _ _ _ hfresh
      | ok u =>
        simp only [runTask, hid, hpath]
        exact mainPhase_temp_removed _ _ _ _ _ _ _ _ _ _ _ hfresh
    | fileTask p dt id =>
      simp only [Task.image_id] at hid
      by_cases hpfs : p ∈ fs₀
      · simp only [runTask, if_pos hpfs]
        exact mainPhase_not_mem _ _ _ _ _ _ _ _ _ _ _ _ hfresh
      · cases hbytes : ent₀.image_data.isSome with
        | true =>
          cases writeRes with
          | error we =>
            simp [runTask, hid, hpfs, hbytes]
            exact finallyCleanup_temp_not_mem _ _ _ _ _ _ hfresh
          | ok u =>
            simp [runTask, hid, hpfs, hbytes]
            exact mainPhase_temp_removed _ _ _ _ _ _ _ _ _ _ _ hfresh
        | false =>
          simp [runTask, hid, hpfs, hbytes]
          exact finallyCleanup_not_mem _ _ _ _ _ _ _ hfresh
  · intro q hq hout
    cases task with
    | memTask buf dt id =>
      simp only [Task.image_id] at hid
      cases writeRes with
      | error we =>
        simp only [runTask, hid, hpath] at hout
        rcases finallyCleanup_removed _ _ _ _ _ _ q
            (List.mem_cons_of_mem _ hq) hout with hT | ⟨e, hga, hep, hei⟩
        · injection hT with hT2
          exact absurd hq (hT2 ▸ hfresh)
        · rw [bailErrorStore_entry store₀ id
            ("Could not create temporary file: " ++ we) ent₀ hid] at hga
          injection hga with he
          subst he
          have hep' : ent₀.path = some q := hep
          have hei' : ent₀.image_data.isSome = true := hei
          rw [hpath] at hep'
          injection hep' with he2
          exact ⟨he2.symm, hei'⟩
      | ok u =>
        simp only [runTask, hid, hpath] at hout
        rcases mainPhase_removed _ store₀ dt id tempPath true (some tempPath)
            cfg loadRes preRes chat ent₀ orig hid hpath q
            (List.mem_cons_of_mem _ hq) hout with hT | hr
        · injection hT with hT2
          exact absurd hq (hT2 ▸ hfresh)
        · exact hr
    | fileTask p dt id =>
      simp only [Task.image_id] at hid
      by_cases hpfs : p ∈ fs₀
      · simp only [runTask, if_pos hpfs] at hout
        rcases mainPhase_removed fs₀ store₀ dt id p false none cfg loadRes
            preRes chat ent₀ orig hid hpath q hq hout with hT | hr
        · exact absurd hT (by simp)
        · exact hr
      · cases hbytes : ent₀.image_data.isSome with
        | true =>
          cases writeRes with
          | error we =>
            simp [runTask, hid, hpfs, hbytes] at hout
            rcases finallyCleanup_removed _ _ _ _ _ _ q
                (List.mem_cons_of_mem _ hq) hout with hT | ⟨e, hga, hep, hei⟩
            · injection hT with hT2
              exact absurd hq (hT2 ▸ hfresh)
            · rw [bailErrorStore_entry store₀ id
                ("Could not create temporary file: " ++ we) ent₀ hid] at hga
              injection hga with he
              subst he
              have hep' : ent₀.path = some q := hep
              have hei' : ent₀.image_data.isSome = true := hei
              rw [hpath] at hep'
              injection hep' with he2
              exact ⟨he2.symm, rfl⟩
          | ok u =>
            simp [runTask, hid, hpfs, hbytes] at hout
            rcases mainPhase_removed _ store₀ dt id tempPath true
                (some tempPath) cfg loadRes preRes chat ent₀ orig hid hpath q
                (List.mem_cons_of_mem _ hq) hout with hT | hr
            · injection hT with hT2
              exact absurd hq (hT2 ▸ hfresh)
            · exact ⟨hr.1, rfl⟩
        | false =>
          simp [runTask, hid, hpfs, hbytes] at hout
          rcases finallyCleanup_removed _ _ _ _ _ _ q hq hout with
            hT | ⟨e, hga, hep, hei⟩
          · exact absurd hT (by simp)
          · rw [bailErrorStore_entry store₀ id "File not found" ent₀ hid] at hga
            injection hga with he
            subst he
            have hei' : ent₀.image_data.isSome = true := hei
            rw [hbytes] at hei'
            exact absurd hei' (by simp)

/-- C9 witness: a concrete in-memory check task; its temporary file is
gone afterwards. -/
theorem c9_file_cleanup_safety_witness :
    (alGet? [("jw", uploadEntry "uploads/w.png" [5])]
        (Task.memTask [5] "check" "jw").image_id =
      some (uploadEntry "uploads/w.png" [5])) ∧
    ("/tmp/w.png" : String) ∉ ["uploads/w.png"] ∧
    ("/tmp/w.png" : String) ∉
      (runTask ["uploads/w.png"] [("jw", uploadEntry "uploads/w.png" [5])]
        (Task.memTask [5] "check" "jw") true (Except.ok ()) (Except.ok ())
        (fun _ => Except.ok "Bank Name: B") "/tmp/w.png" (Except.ok ())).fs := by
  refine ⟨rfl, by simp, ?_⟩
  exact (c9_file_cleanup_safety ["uploads/w.png"]
    [("jw", uploadEntry "uploads/w.png" [5])]
    (Task.memTask [5] "check" "jw") true (Except.ok ()) (Except.ok ())
    (fun _ => Except.ok "Bank Name: B") "/tmp/w.png" (Except.ok ())
    (uploadEntry "uploads/w.png" [5]) "uploads/w.png" rfl rfl (by simp)).1

end Documino
